import Mathlib

/-!
Shallow embedding of the routing decision engine of the multi-agent real-estate
chatbot (agent_router.py, issue_detection_agent.py, tenancy_faq_agent.py).

Texts are modelled as lists of characters.  Python's `needle in haystack`
substring test is `subIn`, `str.lower()` is `lowerStr` (ASCII lowering, which
agrees with Python on the ASCII texts and keyword tables of the program).
The small regular-expression subset actually used by the router
(literals, `\s+`, `(...)?`, `\w+`) is embedded as `Tok` lists with a
backtracking matcher `matchToks` and an unanchored `reSearch`, matching the
semantics of `re.search`.  Confidence arithmetic is modelled over `ℚ`
(the program's decimal constants read as exact rationals).
-/

namespace REBot

/-- Texts are lists of characters. -/
abbrev Str := List Char

/-- Coerce a Lean string literal to the character-list representation. -/
def str (s : String) : Str := s.data

/-- Python `str.lower()` (ASCII lowering). -/
def lowerStr (t : Str) : Str := t.map Char.toLower

/-- Does the needle occur at the very start of the haystack? -/
def leadsWith : Str → Str → Bool
  | [], _ => true
  | _ :: _, [] => false
  | c :: cs, d :: ds => (c == d) && leadsWith cs ds

/-- Python substring test `needle in hay`. -/
def subIn (n : Str) : Str → Bool
  | [] => leadsWith n []
  | c :: t => leadsWith n (c :: t) || subIn n t

/-- Characters matched by `\s` (ASCII whitespace, as relevant here). -/
def isSpc (c : Char) : Bool :=
  c == ' ' || c == '\t' || c == '\n' || c == '\r' ||
    c == Char.ofNat 11 || c == Char.ofNat 12

/-- Characters matched by `\w` (ASCII word characters). -/
def isWordChar (c : Char) : Bool := c.isAlphanum || c == '_'

/-- Tokens of the regular-expression subset used by the router: a literal
character, `\s+`, an optional group `(...)?`, and `\w+`. -/
inductive Tok
  | lit (c : Char)
  | ws
  | opt (g : List Tok)
  | wchars
deriving Repr

/-- Expansion of the optional groups of a token list into the list of its
opt-free alternative token lists.  The router's patterns never nest an
optional group inside another, so a group body is spliced in literally. -/
def alts : List Tok → List (List Tok)
  | [] => [[]]
  | .opt g :: ts => (alts ts).map (fun a => g ++ a) ++ alts ts
  | t :: ts => (alts ts).map (fun a => t :: a)

/-- Backtracking matcher for an opt-free token list against a prefix of the
text (an `opt` token, which `alts` has already removed, matches nothing). -/
def matchFlat : List Tok → Str → Bool
  | [], _ => true
  | .lit _ :: _, [] => false
  | .lit c :: ts, d :: ds => (c == d) && matchFlat ts ds
  | .ws :: _, [] => false
  | .ws :: ts, d :: ds => isSpc d && (matchFlat ts ds || matchFlat (.ws :: ts) ds)
  | .wchars :: _, [] => false
  | .wchars :: ts, d :: ds =>
      isWordChar d && (matchFlat ts ds || matchFlat (.wchars :: ts) ds)
  | .opt _ :: _, _ => false

/-- Does the token list match a prefix of the text (some alternative does)? -/
def matchToks (toks : List Tok) (s : Str) : Bool :=
  (alts toks).any (fun a => matchFlat a s)

/-- Unanchored search, the semantics of Python `re.search` as a Boolean. -/
def reSearch (toks : List Tok) : Str → Bool
  | [] => matchToks toks []
  | c :: t => matchToks toks (c :: t) || reSearch toks t

/-- Literal characters of a string as regex tokens. -/
def lits (s : String) : List Tok := s.data.map Tok.lit

/-- AgentRouter.tenancy_keywords. -/
def tenancy_keywords : List Str :=
  [str ("landlord"), str ("tenant"), str ("rent"), str ("deposit"),
   str ("evict"), str ("eviction"), str ("lease"), str ("notice"),
   str ("rights"), str ("law"), str ("legal"), str ("contract"),
   str ("agreement"), str ("rental"), str ("tenancy"), str ("move out"),
   str ("move in"), str ("security deposit"), str ("rent increase"),
   str ("repair responsibility"), str ("maintenance"), str ("utilities"),
   str ("subletting"), str ("termination"), str ("breach"),
   str ("violation"), str ("dispute"), str ("court")]

/-- AgentRouter.issue_keywords. -/
def issue_keywords : List Str :=
  [str ("damage"), str ("broken"), str ("crack"), str ("leak"),
   str ("leaking"), str ("mold"), str ("mould"), str ("repair"),
   str ("fix"), str ("problem"), str ("issue"), str ("maintenance"),
   str ("water damage"), str ("electrical"), str ("plumbing"),
   str ("heating"), str ("cooling"), str ("hvac"), str ("paint"),
   str ("ceiling"), str ("wall"), str ("floor"), str ("window"),
   str ("door"), str ("fixture"), str ("stain"), str ("smell"),
   str ("odor"), str ("noise"), str ("insulation"), str ("ventilation")]

/-- Regex `can\s+(my\s+)?landlord`. -/
def patCanLandlord : List Tok :=
  lits ("can") ++ [.ws] ++ [.opt (lits ("my") ++ [.ws])] ++ lits ("landlord")

/-- Regex `tenant\s+rights?`. -/
def patTenantRights : List Tok :=
  lits ("tenant") ++ [.ws] ++ lits ("right") ++ [.opt (lits ("s"))]

/-- Regex `rent\s+increase`. -/
def patRentIncrease : List Tok := lits ("rent") ++ [.ws] ++ lits ("increase")

/-- Regex `security\s+deposit`. -/
def patSecurityDeposit : List Tok :=
  lits ("security") ++ [.ws] ++ lits ("deposit")

/-- Regex `evict(ion)?`. -/
def patEvict : List Tok := lits ("evict") ++ [.opt (lits ("ion"))]

/-- Regex `lease\s+agreement`. -/
def patLeaseAgreement : List Tok :=
  lits ("lease") ++ [.ws] ++ lits ("agreement")

/-- Regex `notice\s+period`. -/
def patNoticePeriod : List Tok := lits ("notice") ++ [.ws] ++ lits ("period")

/-- Regex `move\s+out`. -/
def patMoveOut : List Tok := lits ("move") ++ [.ws] ++ lits ("out")

/-- Regex `terminate\s+lease`. -/
def patTerminateLease : List Tok :=
  lits ("terminate") ++ [.ws] ++ lits ("lease")

/-- AgentRouter tenancy_patterns. -/
def tenancy_patterns : List (List Tok) :=
  [patCanLandlord, patTenantRights, patRentIncrease, patSecurityDeposit,
   patEvict, patLeaseAgreement, patNoticePeriod, patMoveOut,
   patTerminateLease]

/-- Regex `what'?s\s+wrong\s+with` (39 is the apostrophe code point). -/
def patWhatsWrong : List Tok :=
  lits ("what") ++ [.opt [.lit (Char.ofNat 39)]] ++ lits ("s") ++ [.ws] ++
    lits ("wrong") ++ [.ws] ++ lits ("with")

/-- Regex `fix\s+this`. -/
def patFixThis : List Tok := lits ("fix") ++ [.ws] ++ lits ("this")

/-- Regex `repair\s+needed`. -/
def patRepairNeeded : List Tok := lits ("repair") ++ [.ws] ++ lits ("needed")

/-- Regex `damage\s+to`. -/
def patDamageTo : List Tok := lits ("damage") ++ [.ws] ++ lits ("to")

/-- Regex `problem\s+with`. -/
def patProblemWith : List Tok := lits ("problem") ++ [.ws] ++ lits ("with")

/-- Regex `issue\s+with`. -/
def patIssueWith : List Tok := lits ("issue") ++ [.ws] ++ lits ("with")

/-- Regex `broken\s+\w+`. -/
def patBroken : List Tok := lits ("broken") ++ [.ws, .wchars]

/-- Regex `leak(ing)?`. -/
def patLeak : List Tok := lits ("leak") ++ [.opt (lits ("ing"))]

/-- Regex `crack\s+in`. -/
def patCrackIn : List Tok := lits ("crack") ++ [.ws] ++ lits ("in")

/-- AgentRouter issue_patterns. -/
def issue_patterns : List (List Tok) :=
  [patWhatsWrong, patFixThis, patRepairNeeded, patDamageTo, patProblemWith,
   patIssueWith, patBroken, patLeak, patCrackIn]

/-- Keyword score: `sum(1 for keyword in keywords if keyword in text_lower)`. -/
def keywordScore (keywords : List Str) (text_lower : Str) : Nat :=
  (keywords.map (fun k => if subIn k text_lower then 1 else 0)).sum

/-- Pattern score: the `for pattern in patterns: if re.search: score += 2` loop. -/
def patternScore (patterns : List (List Tok)) (text_lower : Str) : Nat :=
  (patterns.map (fun p => if reSearch p text_lower then 2 else 0)).sum

/-- Conversation context: `None`, or a dictionary as an association list. -/
abbrev Ctx := Option (List (Str × Str))

/-- First value bound to a key in a dictionary. -/
def dictGet (l : List (Str × Str)) (k : Str) : Option Str :=
  (l.find? (fun p => p.1 == k)).map Prod.snd

/-- Value of `context['last_agent']` when `context` is truthy and has the key,
mirroring `if context and 'last_agent' in context` (an empty dict is falsy). -/
def lastAgentOf : Ctx → Option Str
  | none => none
  | some l => if l.isEmpty then none else dictGet l (str ("last_agent"))

/-- Tenancy score of a text: keyword matches plus pattern bonuses. -/
def tenancyScoreOf (text : Str) : Nat :=
  keywordScore tenancy_keywords (lowerStr text) +
    patternScore tenancy_patterns (lowerStr text)

/-- Issue score of a text: keyword matches plus pattern bonuses. -/
def issueScoreOf (text : Str) : Nat :=
  keywordScore issue_keywords (lowerStr text) +
    patternScore issue_patterns (lowerStr text)

/-- AgentRouter.route_request. -/
def route_request (text : Str) (has_image : Bool) (context : Ctx) : Str :=
  if has_image then str ("agent1")
  else
    let tenancy_score := tenancyScoreOf text
    let issue_score := issueScoreOf text
    if tenancy_score > issue_score ∧ tenancy_score > 0 then str ("agent2")
    else if issue_score > tenancy_score ∧ issue_score > 0 then str ("agent1")
    else if issue_score = tenancy_score ∧ issue_score > 0 then
      match lastAgentOf context with
      | some a => a
      | none => str ("router")
    else str ("router")

theorem keywordScore_eq_countP (kws : List Str) (tl : Str) :
    keywordScore kws tl = kws.countP (fun k => subIn k tl) := by
  induction kws with
  | nil => rfl
  | cons k t ih =>
    simp only [keywordScore, List.map_cons, List.sum_cons, List.countP_cons] at *
    rw [ih]
    by_cases h : subIn k tl <;> simp [h] <;> omega

theorem patternScore_eq_countP (ps : List (List Tok)) (tl : Str) :
    patternScore ps tl = 2 * ps.countP (fun p => reSearch p tl) := by
  induction ps with
  | nil => rfl
  | cons p t ih =>
    simp only [patternScore, List.map_cons, List.sum_cons, List.countP_cons] at *
    rw [ih]
    by_cases h : reSearch p tl <;> simp [h] <;> omega

/-- The routing rule exactly as the specification states it: scores are the
number of matching keywords plus 2 per matching pattern, then the four-branch
rule (tenancy wins, issue wins, sticky tie, clarify). -/
def decideSpec (text : Str) (context : Ctx) : Str :=
  let t := tenancy_keywords.countP (fun k => subIn k (lowerStr text)) +
    2 * tenancy_patterns.countP (fun p => reSearch p (lowerStr text))
  let i := issue_keywords.countP (fun k => subIn k (lowerStr text)) +
    2 * issue_patterns.countP (fun p => reSearch p (lowerStr text))
  if t > i ∧ t > 0 then str ("agent2")
  else if i > t ∧ i > 0 then str ("agent1")
  else if i = t ∧ i > 0 then
    match lastAgentOf context with
    | some a => a
    | none => str ("router")
  else str ("router")

/-- C1: with no image, the router applies the spec's four-branch rule to the
two scores (keyword count plus 2 per matching pattern): tenancy wins on a
strictly higher positive tenancy score, issue wins symmetrically, an equal
nonzero tie returns `context['last_agent']` when set and router otherwise,
and two zero scores give router. -/
theorem c1_route_decision_rule (text : Str) (ctx : Ctx) :
    route_request text false ctx = decideSpec text ctx := by
  simp only [route_request, decideSpec, tenancyScoreOf, issueScoreOf,
    keywordScore_eq_countP, patternScore_eq_countP, Bool.false_eq_true,
    if_false]

/-- C2: an uploaded image routes to the issue-detection agent unconditionally,
whatever the text and context. -/
theorem c2_image_forces_issue_agent (text : Str) (ctx : Ctx) :
    route_request text true ctx = str ("agent1") := by
  simp [route_request]

/-- Specification-side count of keywords occurring case-insensitively as a
substring of the text, each keyword counted once. -/
def ciKeywordCount (kws : List Str) (text : Str) : Nat :=
  kws.countP (fun k => subIn (lowerStr k) (lowerStr text))

/-- C3: on lowercase-invariant keyword lists (all the program's tables are),
the keyword score is the number of keywords occurring case-insensitively in
the text, each counted once; the pattern score is exactly 2 per matching
pattern; and on the empty text the router's keyword and pattern scores are
all zero. -/
theorem c3_scorer_counts (text : Str) (kws : List Str) (ps : List (List Tok))
    (h : ∀ k ∈ kws, lowerStr k = k) :
    keywordScore kws (lowerStr text) = ciKeywordCount kws text ∧
      patternScore ps (lowerStr text) =
        2 * ps.countP (fun p => reSearch p (lowerStr text)) ∧
      keywordScore tenancy_keywords (lowerStr []) = 0 ∧
      keywordScore issue_keywords (lowerStr []) = 0 ∧
      patternScore tenancy_patterns (lowerStr []) = 0 ∧
      patternScore issue_patterns (lowerStr []) = 0 := by
  refine ⟨?_, patternScore_eq_countP ps (lowerStr text), by decide, by decide,
    by decide, by decide⟩
  rw [keywordScore_eq_countP, ciKeywordCount]
  exact List.countP_congr (fun k hk => by rw [h k hk])

/-- Counterexample to C3 as universally stated: the scorer lowercases only
the text, so an uppercase keyword never matches even when it occurs
case-insensitively, and the empty keyword makes even the empty text score 1
(Python `'' in ''` is true). -/
theorem c3_counterexample :
    keywordScore [str ("A")] (lowerStr (str ("a"))) = 0 ∧
      ciKeywordCount [str ("A")] (str ("a")) = 1 ∧
      keywordScore [([] : Str)] (lowerStr ([] : Str)) = 1 :=
  ⟨by decide, by decide, by decide⟩

/-- Witness for C3 at a concrete lowercase keyword list, pattern list and
text. -/
theorem c3_scorer_counts_witness :
    (∀ k ∈ [str ("mold"), str ("leak")], lowerStr k = k) ∧
      keywordScore [str ("mold"), str ("leak")]
          (lowerStr (str ("Mold and leaks"))) =
        ciKeywordCount [str ("mold"), str ("leak")] (str ("Mold and leaks")) :=
  ⟨by decide,
    (c3_scorer_counts (str ("Mold and leaks")) [str ("mold"), str ("leak")]
      [patLeak] (by decide)).1⟩

/-- IssueDetectionAgent severe indicator words. -/
def severe_indicators : List Str :=
  [str ("extensive"), str ("large"), str ("major"), str ("severe"),
   str ("bad"), str ("terrible"), str ("everywhere")]

/-- IssueDetectionAgent moderate indicator words. -/
def moderate_indicators : List Str :=
  [str ("noticeable"), str ("visible"), str ("concerning"), str ("growing"),
   str ("spreading")]

/-- IssueDetectionAgent._determine_severity (callers pass the lowercased
description; the issue type argument is unused by the source). -/
def determine_severity (description : Str) (issue_type : Str) : Str :=
  if severe_indicators.any (fun w => subIn w description) then str ("severe")
  else if moderate_indicators.any (fun w => subIn w description) then
    str ("moderate")
  else str ("minor")

/-- The severity rule as the specification words it: first tier whose
indicator list has a word appearing in the lowercased text wins, by pure
existence check. -/
def severitySpec (text : Str) : Str :=
  if severe_indicators.any (fun w => subIn w (lowerStr text)) then
    str ("severe")
  else if moderate_indicators.any (fun w => subIn w (lowerStr text)) then
    str ("moderate")
  else str ("minor")

/-- C8: the severity classifier implements the three-tier first-match rule on
the lowercased text, and classifies the spec's three examples as severe,
moderate and minor respectively. -/
theorem c8_severity_classifier :
    (∀ text issue_type,
        determine_severity (lowerStr text) issue_type = severitySpec text) ∧
      determine_severity (str ("there is extensive mold everywhere"))
          (str ("mold_growth")) = str ("severe") ∧
      determine_severity (str ("a small noticeable stain"))
          (str ("water_damage")) = str ("moderate") ∧
      determine_severity (str ("a tiny mark")) (str ("cosmetic_damage")) =
        str ("minor") :=
  ⟨fun _ _ => rfl, by decide, by decide, by decide⟩

/-- C9: the router is a total function whose result is always an explicit
agent value ("agent1", "agent2", the sticky last agent, or "router"); with no
stickiness signal (missing or falsy context, or no last_agent key), an equal
pair of scores — tied nonzero or both zero — falls through to "router"
rather than failing. -/
theorem c9_total_and_tie_falls_to_router :
    (∀ (text : Str) (img : Bool) (ctx : Ctx),
        route_request text img ctx = str ("agent1") ∨
          route_request text img ctx = str ("agent2") ∨
            route_request text img ctx = str ("router") ∨
              lastAgentOf ctx = some (route_request text img ctx)) ∧
      ∀ (text : Str) (ctx : Ctx), lastAgentOf ctx = none →
        issueScoreOf text = tenancyScoreOf text →
          route_request text false ctx = str ("router") := by
  constructor
  · intro text img ctx
    cases img with
    | true => exact Or.inl rfl
    | false =>
      simp only [route_request, Bool.false_eq_true, if_false]
      split_ifs with h1 h2 h3
      · exact Or.inr (Or.inl rfl)
      · exact Or.inl rfl
      · rcases h : lastAgentOf ctx with _ | a
        · exact Or.inr (Or.inr (Or.inl rfl))
        · exact Or.inr (Or.inr (Or.inr rfl))
      · exact Or.inr (Or.inr (Or.inl rfl))
  · intro text ctx h heq
    simp only [route_request, Bool.false_eq_true, if_false]
    split_ifs with h1 h2 h3
    · omega
    · omega
    · simp only [h]
    · rfl

/-- Witness for C9 on a text whose two scores tie at 1 and an absent
context. -/
theorem c9_total_and_tie_falls_to_router_witness :
    lastAgentOf none = none ∧
      issueScoreOf (str ("maintenance")) =
        tenancyScoreOf (str ("maintenance")) ∧
      route_request (str ("maintenance")) false none = str ("router") :=
  ⟨rfl, by decide,
    c9_total_and_tie_falls_to_router.2 (str ("maintenance")) none rfl
      (by decide)⟩

theorem leadsWith_append (n h s : Str) :
    leadsWith n h = true → leadsWith n (h ++ s) = true := by
  induction n generalizing h with
  | nil => intro; rfl
  | cons c cs ih =>
    cases h with
    | nil => intro hx; exact absurd hx (by simp [leadsWith])
    | cons d ds =>
      simp only [leadsWith, List.cons_append, Bool.and_eq_true]
      rintro ⟨h1, h2⟩
      exact ⟨h1, ih ds h2⟩

theorem subIn_nil_needle (h : Str) : subIn [] h = true := by
  cases h <;> simp [subIn, leadsWith]

theorem subIn_append (n h s : Str) :
    subIn n h = true → subIn n (h ++ s) = true := by
  induction h with
  | nil =>
    intro hx
    cases n with
    | nil => exact subIn_nil_needle s
    | cons c cs => simp [subIn, leadsWith] at hx
  | cons d ds ih =>
    simp only [subIn, List.cons_append, Bool.or_eq_true]
    rintro (h1 | h2)
    · exact Or.inl (leadsWith_append _ _ s h1)
    · exact Or.inr (ih h2)

theorem matchFlat_append (a : List Tok) (s e : Str) :
    matchFlat a s = true → matchFlat a (s ++ e) = true := by
  induction s generalizing a with
  | nil =>
    intro h
    cases a with
    | nil => simp [matchFlat]
    | cons t ts => cases t <;> simp [matchFlat] at h
  | cons d ds ih =>
    intro h
    cases a with
    | nil => simp [matchFlat]
    | cons t ts =>
      cases t with
      | lit c =>
        simp only [matchFlat, List.cons_append, Bool.and_eq_true] at h ⊢
        exact ⟨h.1, ih ts h.2⟩
      | ws =>
        simp only [matchFlat, List.cons_append, Bool.and_eq_true,
          Bool.or_eq_true] at h ⊢
        obtain ⟨h1, h2 | h3⟩ := h
        · exact ⟨h1, Or.inl (ih ts h2)⟩
        · exact ⟨h1, Or.inr (ih (.ws :: ts) h3)⟩
      | wchars =>
        simp only [matchFlat, List.cons_append, Bool.and_eq_true,
          Bool.or_eq_true] at h ⊢
        obtain ⟨h1, h2 | h3⟩ := h
        · exact ⟨h1, Or.inl (ih ts h2)⟩
        · exact ⟨h1, Or.inr (ih (.wchars :: ts) h3)⟩
      | opt g => simp [matchFlat] at h

theorem matchToks_append (toks : List Tok) (s e : Str) :
    matchToks toks s = true → matchToks toks (s ++ e) = true := by
  simp only [matchToks, List.any_eq_true]
  rintro ⟨a, ha, hm⟩
  exact ⟨a, ha, matchFlat_append a s e hm⟩

theorem reSearch_of_matchToks (toks : List Tok) (s : Str) :
    matchToks toks s = true → reSearch toks s = true := by
  cases s with
  | nil => exact fun h => h
  | cons c t =>
    intro h
    simp only [reSearch, Bool.or_eq_true]
    exact Or.inl h

theorem reSearch_append (toks : List Tok) (s e : Str) :
    reSearch toks s = true → reSearch toks (s ++ e) = true := by
  induction s with
  | nil =>
    intro h
    exact reSearch_of_matchToks toks e (matchToks_append toks [] e h)
  | cons c t ih =>
    simp only [reSearch, List.cons_append, Bool.or_eq_true]
    rintro (h | h)
    · exact Or.inl (matchToks_append _ _ e h)
    · exact Or.inr (ih h)

/-- C6 (amended): appending text — in particular one more occurrence of a
distinct issue keyword — never decreases the issue score. -/
theorem c6_issue_score_append_mono (text extra : Str) :
    issueScoreOf text ≤ issueScoreOf (text ++ extra) := by
  have hlow : lowerStr (text ++ extra) = lowerStr text ++ lowerStr extra :=
    List.map_append _ _ _
  unfold issueScoreOf keywordScore patternScore
  rw [hlow]
  refine Nat.add_le_add (List.sum_le_sum ?_) (List.sum_le_sum ?_)
  · intro k _
    by_cases h : subIn k (lowerStr text)
    · rw [if_pos h, if_pos (subIn_append _ _ _ h)]
    · rw [if_neg h]
      exact Nat.zero_le _
  · intro p _
    by_cases h : reSearch p (lowerStr text)
    · rw [if_pos h, if_pos (reSearch_append _ _ _ h)]
    · rw [if_neg h]
      exact Nat.zero_le _

/-- Counterexample to C6 as stated: appending one occurrence of the issue
keyword "electrical" (absent from the original text) moves the routing
decision from the issue-detection agent to the tenancy agent, because the
appended characters complete the tenancy keyword "rent increase" and the
tenancy pattern `rent\s+increase`. -/
theorem c6_counterexample :
    str ("electrical") ∈ issue_keywords ∧
      subIn (str ("electrical"))
          (lowerStr (str ("mold fix rent increas"))) = false ∧
      subIn (str ("electrical"))
          (lowerStr (str ("mold fix rent increas") ++ str ("electrical"))) =
        true ∧
      route_request (str ("mold fix rent increas")) false none =
        str ("agent1") ∧
      route_request (str ("mold fix rent increas") ++ str ("electrical"))
          false none = str ("agent2") :=
  ⟨by decide, by decide, by decide, by decide, by decide⟩

/-- Topic names and keyword lists of TenancyFAQAgent.legal_database. -/
def legal_database : List (Str × List Str) :=
  [(str ("eviction"),
    [str ("evict"), str ("eviction"), str ("kick out"), str ("remove"),
     str ("terminate lease")]),
   (str ("rent_increase"),
    [str ("rent increase"), str ("raise rent"), str ("rent hike"),
     str ("increase rent")]),
   (str ("security_deposit"),
    [str ("deposit"), str ("security deposit"), str ("last month"),
     str ("damage deposit")]),
   (str ("repairs_maintenance"),
    [str ("repair"), str ("maintenance"), str ("fix"), str ("broken"),
     str ("landlord responsibility")]),
   (str ("lease_termination"),
    [str ("move out"), str ("terminate lease"), str ("break lease"),
     str ("early termination")]),
   (str ("tenant_rights"),
    [str ("tenant rights"), str ("rights"), str ("what can landlord do"),
     str ("illegal")])]

/-- Topic names and keyword lists of IssueDetectionAgent.issue_database. -/
def issue_database : List (Str × List Str) :=
  [(str ("water_damage"),
    [str ("water"), str ("leak"), str ("stain"), str ("wet"), str ("damp"),
     str ("moisture")]),
   (str ("structural_damage"),
    [str ("crack"), str ("hole"), str ("foundation"), str ("wall"),
     str ("ceiling")]),
   (str ("mold_growth"),
    [str ("mold"), str ("mould"), str ("fungus"), str ("black spots"),
     str ("green")]),
   (str ("electrical_issues"),
    [str ("electrical"), str ("outlet"), str ("switch"), str ("wiring"),
     str ("light")]),
   (str ("plumbing_issues"),
    [str ("pipe"), str ("drain"), str ("toilet"), str ("faucet"),
     str ("sink")]),
   (str ("cosmetic_damage"),
    [str ("paint"), str ("scratch"), str ("dent"), str ("scuff"),
     str ("wear")])]

/-- Construction of the `topic_scores` dictionary of
TenancyFAQAgent._identify_topic: table order, positive scores only. -/
def topicScores (table : List (Str × List Str)) (text_lower : Str) :
    List (Str × Nat) :=
  table.filterMap (fun e =>
    let s := keywordScore e.2 text_lower
    if 0 < s then some (e.1, s) else none)

/-- Python `max(iterable, key=score)`: left fold keeping the current element
unless a strictly greater score appears, so the first maximum wins. -/
def pymax {α : Type} : (α × Nat) → List (α × Nat) → (α × Nat)
  | best, [] => best
  | best, e :: rest => pymax (if e.2 > best.2 then e else best) rest

/-- TenancyFAQAgent._identify_topic: the key of `topic_scores` with the
highest score under Python `max`, or None when the dictionary is empty. -/
def identify_topic (table : List (Str × List Str)) (text : Str) :
    Option Str :=
  match topicScores table (lowerStr text) with
  | [] => none
  | e :: rest => some (pymax e rest).1

/-- Largest score in a scored list. -/
def maxScoreOf {α : Type} : List (α × Nat) → Nat
  | [] => 0
  | x :: t => max x.2 (maxScoreOf t)

/-- The identification contract as the specification words it: the first
topic in table order reaching the maximum keyword score, or None exactly
when every topic scores zero. -/
def identifySpec (table : List (Str × List Str)) (text : Str) : Option Str :=
  let scored := table.map (fun e => (e.1, keywordScore e.2 (lowerStr text)))
  if maxScoreOf scored = 0 then none
  else (scored.find? (fun x => x.2 == maxScoreOf scored)).map Prod.fst

theorem maxScoreOf_attained {α : Type} (l : List (α × Nat))
    (h : 0 < maxScoreOf l) : ∃ x ∈ l, x.2 = maxScoreOf l := by
  induction l with
  | nil => simp [maxScoreOf] at h
  | cons e t ih =>
    by_cases h2 : maxScoreOf t ≤ e.2
    · refine ⟨e, List.mem_cons_self e t, ?_⟩
      simp only [maxScoreOf]
      omega
    · push_neg at h2
      have hM : maxScoreOf (e :: t) = maxScoreOf t := by
        simp only [maxScoreOf]
        omega
      obtain ⟨x, hx, hxe⟩ := ih (by omega)
      exact ⟨x, List.mem_cons_of_mem e hx, by rw [hM, hxe]⟩

theorem pymax_eq {α : Type} (l : List (α × Nat)) : ∀ best : α × Nat,
    pymax best l =
      (l.find? (fun x => decide (best.2 < x.2) &&
        (x.2 == maxScoreOf l))).getD best := by
  induction l with
  | nil => intro best; rfl
  | cons e t ih =>
    intro best
    by_cases h1 : best.2 < e.2
    · have hb : pymax best (e :: t) = pymax e t := by
        simp only [pymax, if_pos (by omega : e.2 > best.2)]
      rw [hb, ih e]
      by_cases h2 : maxScoreOf t ≤ e.2
      · have hM : maxScoreOf (e :: t) = e.2 := by
          simp only [maxScoreOf]
          omega
        rw [hM]
        have hnone : t.find? (fun x => decide (e.2 < x.2) &&
            (x.2 == maxScoreOf t)) = none := by
          rw [List.find?_eq_none]
          intro x _
          simp only [Bool.and_eq_true, decide_eq_true_eq, beq_iff_eq,
            not_and]
          intro hlt heq
          omega
        rw [hnone, List.find?_cons_of_pos _ (by simp [h1])]
        rfl
      · push_neg at h2
        have hM : maxScoreOf (e :: t) = maxScoreOf t := by
          simp only [maxScoreOf]
          omega
        rw [hM]
        rw [List.find?_cons_of_neg _
          (by simp only [Bool.and_eq_true, decide_eq_true_eq, beq_iff_eq,
                not_and]
              intro _
              omega)]
        have hfun : (fun x : α × Nat => decide (e.2 < x.2) &&
            (x.2 == maxScoreOf t)) =
            fun x => decide (best.2 < x.2) && (x.2 == maxScoreOf t) := by
          funext x
          by_cases hx : x.2 = maxScoreOf t
          · simp only [hx, beq_self_eq_true, Bool.and_true]
            rw [decide_eq_true (by omega : e.2 < maxScoreOf t),
              decide_eq_true (by omega : best.2 < maxScoreOf t)]
          · have hxf : (x.2 == maxScoreOf t) = false := by
              simp [beq_iff_eq, hx]
            simp [hxf]
        rw [hfun]
        have hsome : (t.find? (fun x : α × Nat => decide (best.2 < x.2) &&
            (x.2 == maxScoreOf t))).isSome := by
          obtain ⟨x, hx, hxe⟩ := maxScoreOf_attained t (by omega)
          refine List.find?_isSome.mpr ⟨x, hx, ?_⟩
          simp only [Bool.and_eq_true, decide_eq_true_eq, beq_iff_eq]
          omega
        obtain ⟨v, hv⟩ := Option.isSome_iff_exists.mp hsome
        rw [hv]
        rfl
    · have hb : pymax best (e :: t) = pymax best t := by
        simp only [pymax, if_neg (by omega : ¬e.2 > best.2)]
      rw [hb, ih best]
      rw [List.find?_cons_of_neg _
        (by simp only [Bool.and_eq_true, decide_eq_true_eq, not_and]
            intro hlt
            omega)]
      by_cases h2 : e.2 ≤ maxScoreOf t
      · have hM : maxScoreOf (e :: t) = maxScoreOf t := by
          simp only [maxScoreOf]
          omega
        rw [hM]
      · push_neg at h2
        have hM : maxScoreOf (e :: t) = e.2 := by
          simp only [maxScoreOf]
          omega
        rw [hM]
        have n1 : t.find? (fun x => decide (best.2 < x.2) &&
            (x.2 == maxScoreOf t)) = none := by
          rw [List.find?_eq_none]
          intro x _
          simp only [Bool.and_eq_true, decide_eq_true_eq, beq_iff_eq,
            not_and]
          intro hlt heq
          omega
        have n2 : t.find? (fun x => decide (best.2 < x.2) &&
            (x.2 == e.2)) = none := by
          rw [List.find?_eq_none]
          intro x _
          simp only [Bool.and_eq_true, decide_eq_true_eq, beq_iff_eq,
            not_and]
          intro hlt heq
          omega
        rw [n1, n2]

theorem topicScores_eq (table : List (Str × List Str)) (tl : Str) :
    topicScores table tl =
      (table.map (fun e => (e.1, keywordScore e.2 tl))).filter
        (fun x => decide (0 < x.2)) := by
  induction table with
  | nil => rfl
  | cons e t ih =>
    unfold topicScores at ih ⊢
    simp only [List.filterMap_cons, List.map_cons, List.filter_cons]
    by_cases h : 0 < keywordScore e.2 tl
    · simp [h, ih]
    · simp [h, ih]

theorem find?_filter_of_imp {α : Type} (l : List α) (p q : α → Bool)
    (h : ∀ x, p x = true → q x = true) :
    (l.filter q).find? p = l.find? p := by
  induction l with
  | nil => rfl
  | cons a t ih =>
    simp only [List.filter_cons]
    by_cases hq : q a = true
    · rw [if_pos hq]
      by_cases hp : p a = true
      · rw [List.find?_cons_of_pos _ hp, List.find?_cons_of_pos _ hp]
      · rw [List.find?_cons_of_neg _ hp, List.find?_cons_of_neg _ hp, ih]
    · have hp : ¬p a = true := fun hpa => hq (h a hpa)
      rw [if_neg hq, ih, List.find?_cons_of_neg _ hp]

theorem maxScoreOf_filter_pos {α : Type} (l : List (α × Nat)) :
    maxScoreOf (l.filter (fun x => decide (0 < x.2))) = maxScoreOf l := by
  induction l with
  | nil => rfl
  | cons e t ih =>
    simp only [List.filter_cons]
    by_cases h : 0 < e.2
    · simp only [decide_eq_true h, if_true, maxScoreOf, ih]
    · rw [if_neg (by simp [h]), ih]
      simp only [maxScoreOf]
      omega

theorem maxScoreOf_eq_zero_iff {α : Type} (l : List (α × Nat)) :
    maxScoreOf l = 0 ↔ ∀ x ∈ l, x.2 = 0 := by
  induction l with
  | nil => simp [maxScoreOf]
  | cons e t ih =>
    simp [maxScoreOf, Nat.max_eq_zero_iff, ih, List.forall_mem_cons]

/-- C4: topic identification returns exactly the first topic in table order
whose keyword score reaches the maximum score, and returns None exactly when
every topic scores zero. -/
theorem c4_identify_first_max (table : List (Str × List Str)) (text : Str) :
    identify_topic table text = identifySpec table text ∧
      (identify_topic table text = none ↔
        ∀ e ∈ table, keywordScore e.2 (lowerStr text) = 0) := by
  have hz : maxScoreOf (table.map
      (fun e => (e.1, keywordScore e.2 (lowerStr text)))) = 0 ↔
      ∀ e ∈ table, keywordScore e.2 (lowerStr text) = 0 := by
    rw [maxScoreOf_eq_zero_iff]
    constructor
    · intro h e he
      exact h (e.1, keywordScore e.2 (lowerStr text))
        (List.mem_map_of_mem _ he)
    · rintro h x hx
      obtain ⟨e, he, rfl⟩ := List.mem_map.mp hx
      exact h e he
  have hmain : identify_topic table text = identifySpec table text := by
    simp only [identify_topic, identifySpec, topicScores_eq]
    cases hF : (table.map (fun e => (e.1, keywordScore e.2
        (lowerStr text)))).filter (fun x => decide (0 < x.2)) with
    | nil =>
      have h0 : maxScoreOf (table.map
          (fun e => (e.1, keywordScore e.2 (lowerStr text)))) = 0 := by
        rw [← maxScoreOf_filter_pos, hF]
        rfl
      rw [if_pos h0]
    | cons e r =>
      have hmemF : e ∈ (table.map (fun e => (e.1, keywordScore e.2
          (lowerStr text)))).filter (fun x => decide (0 < x.2)) := by
        rw [hF]
        exact List.mem_cons_self e r
      have hepos : 0 < e.2 := by
        have := (List.mem_filter.mp hmemF).2
        simpa using this
      have hMF : maxScoreOf (e :: r) = maxScoreOf (table.map
          (fun e => (e.1, keywordScore e.2 (lowerStr text)))) := by
        rw [← hF, maxScoreOf_filter_pos]
      have hpos : 0 < maxScoreOf (table.map
          (fun e => (e.1, keywordScore e.2 (lowerStr text)))) := by
        rw [← hMF]
        simp only [maxScoreOf]
        omega
      rw [if_neg (by omega)]
      show some (pymax e r).1 = _
      rw [pymax_eq]
      rw [← find?_filter_of_imp (table.map (fun e => (e.1, keywordScore e.2
            (lowerStr text))))
          (fun x => x.2 == maxScoreOf (table.map (fun e => (e.1,
            keywordScore e.2 (lowerStr text))))) (fun x => decide (0 < x.2))
          (by intro x hx
              simp only [beq_iff_eq] at hx
              simp only [decide_eq_true_eq]
              omega)]
      rw [hF, ← hMF]
      by_cases h2 : maxScoreOf r ≤ e.2
      · have hMe : maxScoreOf (e :: r) = e.2 := by
          simp only [maxScoreOf]
          omega
        rw [hMe]
        have hnone : r.find? (fun x => decide (e.2 < x.2) &&
            (x.2 == maxScoreOf r)) = none := by
          rw [List.find?_eq_none]
          intro x _
          simp only [Bool.and_eq_true, decide_eq_true_eq, beq_iff_eq,
            not_and]
          intro hlt heq
          omega
        rw [hnone, List.find?_cons_of_pos _ (by simp)]
        rfl
      · push_neg at h2
        have hMr : maxScoreOf (e :: r) = maxScoreOf r := by
          simp only [maxScoreOf]
          omega
        rw [hMr]
        rw [List.find?_cons_of_neg _
          (by simp only [beq_iff_eq]
              omega)]
        have hfun : (fun x : Str × Nat => decide (e.2 < x.2) &&
            (x.2 == maxScoreOf r)) = fun x => x.2 == maxScoreOf r := by
          funext x
          by_cases hx : x.2 = maxScoreOf r
          · simp only [hx, beq_self_eq_true, Bool.and_true]
            rw [decide_eq_true (by omega : e.2 < maxScoreOf r)]
          · have hxf : (x.2 == maxScoreOf r) = false := by
              simp [beq_iff_eq, hx]
            simp [hxf]
        rw [hfun]
        have hsome : (r.find? (fun x : Str × Nat =>
            x.2 == maxScoreOf r)).isSome := by
          obtain ⟨x, hx, hxe⟩ := maxScoreOf_attained r (by omega)
          exact List.find?_isSome.mpr ⟨x, hx, by simp [hxe]⟩
        obtain ⟨v, hv⟩ := Option.isSome_iff_exists.mp hsome
        rw [hv]
        rfl
  refine ⟨hmain, ?_⟩
  rw [hmain]
  simp only [identifySpec]
  by_cases h : maxScoreOf (table.map
      (fun e => (e.1, keywordScore e.2 (lowerStr text)))) = 0
  · rw [if_pos h]
    simpa using hz.mp h
  · rw [if_neg h]
    have hpos : 0 < maxScoreOf (table.map
        (fun e => (e.1, keywordScore e.2 (lowerStr text)))) :=
      Nat.pos_of_ne_zero h
    obtain ⟨x, hx, hxe⟩ := maxScoreOf_attained _ hpos
    have hsome : ((table.map (fun e => (e.1, keywordScore e.2
        (lowerStr text)))).find? (fun y => y.2 == maxScoreOf (table.map
          (fun e => (e.1, keywordScore e.2 (lowerStr text)))))).isSome :=
      List.find?_isSome.mpr ⟨x, hx, by simp [hxe]⟩
    obtain ⟨v, hv⟩ := Option.isSome_iff_exists.mp hsome
    rw [hv]
    exact iff_of_false (by simp) (fun hall => h (hz.mpr hall))

/-- Python `min` on rationals, as an executable conditional. -/
def qmin (a b : ℚ) : ℚ := if a ≤ b then a else b

/-- Python `max` on rationals, as an executable conditional. -/
def qmax (a b : ℚ) : ℚ := if b ≤ a then a else b

theorem qmin_le_left (a b : ℚ) : qmin a b ≤ a := by
  unfold qmin
  split_ifs with h
  · exact le_refl a
  · linarith [not_le.mp h]

theorem le_qmin {a b c : ℚ} (h1 : c ≤ a) (h2 : c ≤ b) : c ≤ qmin a b := by
  unfold qmin
  split_ifs <;> assumption

theorem le_qmax_left (a b : ℚ) : a ≤ qmax a b := by
  unfold qmax
  split_ifs with h
  · exact le_refl a
  · linarith [not_le.mp h]

theorem le_qmax_right (a b : ℚ) : b ≤ qmax a b := by
  unfold qmax
  split_ifs with h
  · exact h
  · exact le_refl b

theorem qmin_mono_right {a b b' : ℚ} (h : b ≤ b') : qmin a b ≤ qmin a b' := by
  unfold qmin
  split_ifs <;> linarith

theorem qmax_mono_right {a b b' : ℚ} (h : b ≤ b') : qmax a b ≤ qmax a b' := by
  unfold qmax
  split_ifs <;> linarith

/-- One entry of the `detected_issues` list built by
IssueDetectionAgent._simulate_image_analysis. -/
structure IssueRec where
  type : Str
  confidence : ℚ
  severity : Str
  keywords_matched : Nat

/-- Per-issue simulated detection confidence:
`min(0.95, 0.6 + keyword_matches * 0.1)`. -/
def sim_confidence (keyword_matches : Nat) : ℚ :=
  qmin 0.95 (0.6 + (keyword_matches : ℚ) * 0.1)

/-- IssueDetectionAgent._calculate_confidence: 0.3 on an empty detection
list, otherwise the primary issue's confidence adjusted by description
length and by the presence of supporting issues, clamped to [0.5, 0.95]. -/
def issue_calculate_confidence (detected_issues : List IssueRec)
    (description_length : Nat) : ℚ :=
  match detected_issues with
  | [] => 0.3
  | primary :: rest =>
    let b1 := primary.confidence
    let b2 := if 50 < description_length then b1 + 0.1
      else if description_length < 10 then b1 - 0.1 else b1
    let b3 := if 1 < (primary :: rest).length then b2 + 0.05 else b2
    qmin 0.95 (qmax 0.5 b3)

/-- Keys of TenancyFAQAgent.location_specific_notes. -/
def location_keys : List Str :=
  [str ("california"), str ("new_york"), str ("texas"), str ("florida")]

/-- Core arithmetic of TenancyFAQAgent._calculate_confidence given the
keyword-match count and the optional location: base 0.8, match-count and
location adjustments, clamped to [0.6, 0.95]. -/
def tenancy_conf_from_matches (keyword_matches : Nat)
    (location : Option Str) : ℚ :=
  let b1 : ℚ := 0.8
  let b2 := if 2 < keyword_matches then b1 + 0.1
    else if keyword_matches = 1 then b1 - 0.1 else b1
  let b3 := match location with
    | some loc =>
        if loc.isEmpty then b2 - 0.05
        else if location_keys.any (fun k => subIn k (lowerStr loc)) then
          b2 + 0.05
        else b2
    | none => b2 - 0.05
  qmin 0.95 (qmax 0.6 b3)

/-- Keyword list of a topic in a database table (`self.legal_database[topic]`;
a missing key, which would raise KeyError, is modelled as none). -/
def topicKeywords (table : List (Str × List Str)) (topic : Str) :
    Option (List Str) :=
  (table.find? (fun e => e.1 == topic)).map Prod.snd

/-- TenancyFAQAgent._calculate_confidence: count the topic's keywords
occurring (lowercased) in the lowercased text, then apply the adjustment
arithmetic. -/
def tenancy_calculate_confidence (text : Str) (topic : Str)
    (location : Option Str) : Option ℚ :=
  (topicKeywords legal_database topic).map (fun kws =>
    let keyword_matches := (kws.map (fun k =>
      if subIn (lowerStr k) (lowerStr text) then 1 else 0)).sum
    tenancy_conf_from_matches keyword_matches location)

/-- C5: the issue-flavoured confidence with at least one detected issue lies
in [0.5, 0.95], and the tenancy-flavoured confidence for an identified topic
lies in [0.6, 0.95], for arbitrary text, description length, supporting
issues and location. -/
theorem c5_confidence_bounds (detected_issues : List IssueRec)
    (description_length : Nat) (h : detected_issues ≠ []) (text topic : Str)
    (location : Option Str) (c : ℚ)
    (hc : tenancy_calculate_confidence text topic location = some c) :
    (0.5 ≤ issue_calculate_confidence detected_issues description_length ∧
        issue_calculate_confidence detected_issues description_length ≤
          0.95) ∧
      0.6 ≤ c ∧ c ≤ 0.95 := by
  constructor
  · cases detected_issues with
    | nil => exact absurd rfl h
    | cons primary rest =>
      simp only [issue_calculate_confidence]
      exact ⟨le_qmin (by norm_num) (le_qmax_left _ _), qmin_le_left _ _⟩
  · simp only [tenancy_calculate_confidence] at hc
    obtain ⟨kws, _, hf⟩ := Option.map_eq_some'.mp hc
    rw [← hf]
    simp only [tenancy_conf_from_matches]
    exact ⟨le_qmin (by norm_num) (le_qmax_left _ _), qmin_le_left _ _⟩

/-- Evaluation of the tenancy confidence on the text "evict", topic
eviction, no location: one keyword match, so 0.8 - 0.1 - 0.05 = 0.65. -/
theorem tenancy_eval_floor :
    tenancy_calculate_confidence (str ("evict")) (str ("eviction")) none =
      some 0.65 := by
  have h1 : tenancy_calculate_confidence (str ("evict")) (str ("eviction"))
      none = some (tenancy_conf_from_matches 1 none) := rfl
  rw [h1]
  norm_num [tenancy_conf_from_matches, qmin, qmax]

/-- Evaluation of the tenancy confidence on a three-match text with a known
location: 0.8 + 0.1 + 0.05 = 0.95. -/
theorem tenancy_eval_ceiling :
    tenancy_calculate_confidence (str ("evict eviction kick out"))
        (str ("eviction")) (some (str ("california"))) = some 0.95 := by
  have h1 : tenancy_calculate_confidence (str ("evict eviction kick out"))
      (str ("eviction")) (some (str ("california"))) =
      some (tenancy_conf_from_matches 3 (some (str ("california")))) := rfl
  have hloc : (location_keys.any
      (fun k => subIn k (lowerStr (str ("california"))))) = true := by decide
  have hne : (str ("california")).isEmpty = false := by decide
  rw [h1]
  norm_num [tenancy_conf_from_matches, qmin, qmax, hloc, hne]

/-- Witness for C5 at one detected issue, topic "eviction", no location. -/
theorem c5_confidence_bounds_witness :
    ([⟨str ("water_damage"), sim_confidence 1, str ("minor"), 1⟩] :
        List IssueRec) ≠ [] ∧
      tenancy_calculate_confidence (str ("evict")) (str ("eviction")) none =
        some 0.65 ∧
      (0.5 ≤ issue_calculate_confidence
          [⟨str ("water_damage"), sim_confidence 1, str ("minor"), 1⟩] 20 ∧
        issue_calculate_confidence
            [⟨str ("water_damage"), sim_confidence 1, str ("minor"), 1⟩] 20 ≤
          0.95) ∧
      0.6 ≤ (0.65 : ℚ) ∧ (0.65 : ℚ) ≤ 0.95 :=
  ⟨by simp, tenancy_eval_floor,
    c5_confidence_bounds
      [⟨str ("water_damage"), sim_confidence 1, str ("minor"), 1⟩] 20
      (by simp) (str ("evict")) (str ("eviction")) none 0.65
      tenancy_eval_floor⟩

theorem tenancy_conf_lower (m : Nat) (location : Option Str) :
    0.65 ≤ tenancy_conf_from_matches m location := by
  rcases location with _ | l
  · simp only [tenancy_conf_from_matches]
    refine le_qmin (by norm_num) (le_trans ?_ (le_qmax_right _ _))
    split_ifs <;> norm_num
  · simp only [tenancy_conf_from_matches]
    refine le_qmin (by norm_num) (le_trans ?_ (le_qmax_right _ _))
    split_ifs <;> norm_num

theorem tenancy_conf_upper (m : Nat) (location : Option Str) :
    tenancy_conf_from_matches m location ≤ 0.95 := by
  simp only [tenancy_conf_from_matches]
  exact qmin_le_left _ _

/-- C10: the tenancy confidence for an identified topic in fact never goes
below 0.65 — the adjustments to the 0.8 base reach at worst
0.8 - 0.1 - 0.05 — so the documented 0.6 clamp floor is never attained and
the realised range is [0.65, 0.95], both endpoints attained. -/
theorem c10_tenancy_floor_065 :
    (∀ (text topic : Str) (location : Option Str) (c : ℚ),
        tenancy_calculate_confidence text topic location = some c →
          0.65 ≤ c ∧ c ≤ 0.95) ∧
      tenancy_calculate_confidence (str ("evict")) (str ("eviction")) none =
        some 0.65 ∧
      tenancy_calculate_confidence (str ("evict eviction kick out"))
        (str ("eviction")) (some (str ("california"))) = some 0.95 := by
  refine ⟨?_, tenancy_eval_floor, tenancy_eval_ceiling⟩
  intro text topic location c hc
  simp only [tenancy_calculate_confidence] at hc
  obtain ⟨kws, _, hf⟩ := Option.map_eq_some'.mp hc
  rw [← hf]
  exact ⟨tenancy_conf_lower _ _, tenancy_conf_upper _ _⟩

/-- Witness for C10 at the floor-attaining input. -/
theorem c10_tenancy_floor_065_witness :
    tenancy_calculate_confidence (str ("evict")) (str ("eviction")) none =
        some 0.65 ∧
      0.65 ≤ (0.65 : ℚ) ∧ (0.65 : ℚ) ≤ 0.95 :=
  ⟨tenancy_eval_floor,
    c10_tenancy_floor_065.1 (str ("evict")) (str ("eviction")) none 0.65
      tenancy_eval_floor⟩

/-- C7: both confidence estimators are monotone in the match count, all
other inputs held fixed — the issue flavour through the primary issue's
simulated confidence for any match counts, the tenancy flavour for match
counts from an identified topic (at least one match). -/
theorem c7_confidence_monotone (k k' description_length : Nat)
    (rest : List IssueRec) (ty sv : Str) (m m' : Nat) (loc : Option Str)
    (hk : k ≤ k') (hm1 : 1 ≤ m) (hm : m ≤ m') :
    issue_calculate_confidence
        ({ type := ty, confidence := sim_confidence k, severity := sv,
           keywords_matched := k } :: rest) description_length ≤
      issue_calculate_confidence
        ({ type := ty, confidence := sim_confidence k', severity := sv,
           keywords_matched := k' } :: rest) description_length ∧
      tenancy_conf_from_matches m loc ≤ tenancy_conf_from_matches m' loc := by
  constructor
  · have hsim : sim_confidence k ≤ sim_confidence k' := by
      unfold sim_confidence
      refine qmin_mono_right ?_
      have hq : (k : ℚ) ≤ (k' : ℚ) := by exact_mod_cast hk
      nlinarith
    simp only [issue_calculate_confidence, List.length_cons]
    refine qmin_mono_right (qmax_mono_right ?_)
    split_ifs <;> linarith
  · rcases loc with _ | l
    · simp only [tenancy_conf_from_matches]
      refine qmin_mono_right (qmax_mono_right ?_)
      split_ifs <;> first | (exfalso; omega) | norm_num
    · simp only [tenancy_conf_from_matches]
      refine qmin_mono_right (qmax_mono_right ?_)
      split_ifs <;> first | (exfalso; omega) | norm_num

/-- Witness for C7 at match counts 1 ≤ 2 (issue) and 1 ≤ 3 (tenancy). -/
theorem c7_confidence_monotone_witness :
    (1 ≤ 2 ∧ 1 ≤ 1 ∧ 1 ≤ 3) ∧
      issue_calculate_confidence
          [⟨str ("water_damage"), sim_confidence 1, str ("minor"), 1⟩] 20 ≤
        issue_calculate_confidence
          [⟨str ("water_damage"), sim_confidence 2, str ("minor"), 2⟩] 20 ∧
      tenancy_conf_from_matches 1 none ≤ tenancy_conf_from_matches 3 none :=
  ⟨⟨by decide, by decide, by decide⟩,
    c7_confidence_monotone 1 2 20 [] (str ("water_damage")) (str ("minor"))
      1 3 none (by decide) (by decide) (by decide)⟩

end REBot
